import Mathlib

/-!
Verification of the ZHC-Nova task control plane against its specification.

The definitions below are a shallow embedding of the Python sources:
  * `shared/task-registry/task_registry.py`   (registry operations)
  * `services/task-router/router.py`          (context compaction, dispatch retry)
  * `services/telegram-control/bot_longpoll.py` (rate limiting, update processing)

Python strings are modelled as `String` (or `List Char` where character-level
reasoning is needed), SQLite rows as Lean structures, tables touched by a
single claim as the corresponding slice of state, timestamps as rationals,
and exceptions as `Except String`.  Every operation that appends to the
`task_events` table additionally returns the list of events it wrote inside
its transaction.
-/

namespace ZhcNova

/-- A `task_events` row as written by `append_event`: (event_type, detail). -/
structure Event where
  eventType : String
  detail : String
deriving DecidableEq, Repr

/-! ## Task statuses and the transition table (`task_registry.py` lines 16-52)

`VALID_TASK_STATUSES` becomes an inductive type; the raw-string validation
performed by `update_task` is absorbed by typing.  The spelling `canceled`
is a distinct member, exactly as in the Python set. -/

inductive TaskStatus where
  | requested | pending | approved | queued | running | blocked
  | succeeded | failed | cancelled | canceled | expired
deriving DecidableEq, Repr, Fintype

open TaskStatus

/-- `update_task` normalises the spelling "canceled" to "cancelled"
(lines 174-178) for both the current and the next status. -/
def normalizeStatus : TaskStatus → TaskStatus
  | canceled => cancelled
  | s => s

/-- `ALLOWED_STATUS_TRANSITIONS` (lines 32-52), verbatim. -/
def allowedStatusTransitions : TaskStatus → List TaskStatus
  | requested => [approved, queued, running, blocked, cancelled, failed]
  | pending => [approved, queued, running, blocked, cancelled, failed]
  | approved => [queued, running, blocked, cancelled, failed]
  | queued => [queued, running, blocked, cancelled, failed, expired]
  | running => [running, succeeded, failed, blocked, cancelled, expired]
  | blocked => [approved, queued, running, succeeded, failed, cancelled, expired]
  | succeeded => [succeeded]
  | failed => [failed]
  | cancelled => [cancelled]
  | canceled => [canceled]
  | expired => [expired]

/-- `update_task` (lines 154-199), restricted to the status column of the
task row: normalise both statuses, and unless `force` is set reject a next
status outside the transition table.  On success the new status is stored
and one `status_updated` event is appended; the Python exception path
raises before the `UPDATE` statement, so the task row is untouched. -/
def updateTask (current next : TaskStatus) (detail : String) (force : Bool) :
    Except String (TaskStatus × List Event) :=
  let currentStatus := normalizeStatus current
  let nextStatus := normalizeStatus next
  if force = false ∧ nextStatus ∉ allowedStatusTransitions currentStatus then
    Except.error "Invalid status transition"
  else
    Except.ok (nextStatus, [⟨"status_updated", detail⟩])

/-- State-machine table of spec §4.1, written from the spec's words:
the five non-terminal rows as printed, and the terminal set
{succeeded, failed, cancelled, expired} absorbing (a terminal status may
only be followed by itself). -/
def spec41Allows : TaskStatus → TaskStatus → Prop
  | requested, t => t ∈ [approved, queued, running, blocked, cancelled, failed]
  | pending, t => t ∈ [approved, queued, running, blocked, cancelled, failed]
  | approved, t => t ∈ [queued, running, blocked, cancelled, failed]
  | queued, t => t ∈ [queued, running, blocked, cancelled, failed, expired]
  | running, t => t ∈ [running, succeeded, failed, blocked, cancelled, expired]
  | blocked, t => t ∈ [approved, queued, running, succeeded, failed, cancelled, expired]
  | s, t => s = t

instance (s t : TaskStatus) : Decidable (spec41Allows s t) := by
  cases s <;> simp only [spec41Allows] <;> infer_instance

lemma updateTask_isOk (c n : TaskStatus) (d : String) (f : Bool) :
    (updateTask c n d f).isOk =
      (f || decide (normalizeStatus n ∈ allowedStatusTransitions (normalizeStatus c))) := by
  simp only [updateTask]
  split <;> rename_i h <;> cases f <;> simp_all [Except.isOk, Except.toBool]

lemma code_table_eq_spec41 (s t : TaskStatus) :
    t ∈ allowedStatusTransitions s ↔ spec41Allows s t := by
  revert s t; decide

lemma updateTask_error_of_not_isOk (c n : TaskStatus) (d : String) (f : Bool)
    (h : (updateTask c n d f).isOk = false) :
    updateTask c n d f = Except.error "Invalid status transition" := by
  revert h; simp only [updateTask]
  split <;> simp [Except.isOk, Except.toBool]

/-- **C2.** `update_task` succeeds exactly when the (normalised) pair
(current_status, next_status) is permitted by the §4.1 state machine —
with the terminal set absorbing — or `force` is set, and otherwise fails
with the invalid-transition error, in which case no update and no event
are produced (the task is unchanged).  The final conjuncts replay seed
scenario S5: from `pending`, update to `blocked` succeeds, `blocked` to
`pending` fails, `blocked` to `succeeded` succeeds, and `succeeded` to
`blocked` fails. -/
theorem C2_update_task_state_machine :
    (∀ (current next : TaskStatus) (detail : String) (force : Bool),
        ((updateTask current next detail force).isOk = true ↔
          (force = true ∨ spec41Allows (normalizeStatus current) (normalizeStatus next)))
        ∧ ((updateTask current next detail force).isOk = false →
            updateTask current next detail force = Except.error "Invalid status transition"))
    ∧ (updateTask .pending .blocked "s5" false).isOk = true
    ∧ (updateTask .blocked .pending "s5" false).isOk = false
    ∧ (updateTask .blocked .succeeded "s5" false).isOk = true
    ∧ (updateTask .succeeded .blocked "s5" false).isOk = false := by
  refine ⟨fun current next detail force => ⟨?_, updateTask_error_of_not_isOk _ _ _ _⟩,
    by decide, by decide, by decide, by decide⟩
  rw [updateTask_isOk]
  cases force <;>
    simp [decide_eq_true_iff, code_table_eq_spec41]

/-- Witness for C2: concrete application at the S5 failing step
`blocked → pending` without force. -/
theorem C2_update_task_state_machine_witness :
    updateTask .blocked .pending "w" false = Except.error "Invalid status transition" :=
  (C2_update_task_state_machine.1 .blocked .pending "w" false).2 (by decide)

/-! ## Approvals (`task_registry.py` lines 228-409)

The `approvals` table restricted to one `(task_id, action_category)` pair,
as the list of its rows in insertion (id) order; the SQL
`ORDER BY id DESC LIMIT 1` used by both operations selects the last
element.  Timestamps are omitted. -/

inductive ApprovalStatus where
  | required | approved | rejected | cancelled
deriving DecidableEq, Repr, Fintype

structure ApprovalRow where
  status : ApprovalStatus
  requestedBy : String
  decidedBy : Option String
  decisionNote : String
deriving DecidableEq, Repr

/-- `request_approval` (lines 228-294) on the rows of one
`(task_id, action_category)` pair: insert a `required` row when none
exists, refresh the latest row when it is still `required`, otherwise
only record an event. -/
def requestApproval (rows : List ApprovalRow) (requestedBy note : String) :
    List ApprovalRow × List Event :=
  match rows.getLast? with
  | none =>
      (rows ++ [⟨.required, requestedBy, none, note⟩],
       [⟨"approval_requested", "created by=" ++ requestedBy⟩])
  | some row =>
      if row.status = .required then
        (rows.dropLast ++ [{ row with requestedBy := requestedBy, decisionNote := note }],
         [⟨"approval_requested", "refreshed_by=" ++ requestedBy⟩])
      else
        (rows, [⟨"approval_requested", "existing_status"⟩])

/-- The two legal values of `decide_approval`'s `decision` argument
(line 306 validates membership in `{"approved", "rejected"}`). -/
inductive ApprovalDecision where
  | approved | rejected
deriving DecidableEq, Repr, Fintype

def ApprovalDecision.toStatus : ApprovalDecision → ApprovalStatus
  | .approved => .approved
  | .rejected => .rejected

/-- `decide_approval` (lines 297-388) on the rows of one pair.  When no
row exists (lines 328-356), the source inserts a `required` row with
`requested_by = "auto_created"`, re-selects it, and — the fresh row being
`required` — falls through to the shared update path, which is inlined
here.  A latest row already terminal is a no-op when the decision matches
its status and an error otherwise (the exception rolls the transaction
back, so the rows are unchanged); a `required` latest row is updated to
the decision. -/
def decideApproval (rows : List ApprovalRow) (decision : ApprovalDecision)
    (decidedBy note : String) : Except String (List ApprovalRow × List Event) :=
  match rows.getLast? with
  | none =>
      Except.ok ([⟨decision.toStatus, "auto_created", some decidedBy, note⟩],
        [⟨"approval_decision", "decision by=" ++ decidedBy⟩])
  | some row =>
      if row.status = .approved ∨ row.status = .rejected ∨ row.status = .cancelled then
        if row.status = decision.toStatus then
          Except.ok (rows, [⟨"approval_decision", "no_op=true"⟩])
        else
          Except.error "Approval already decided"
      else
        Except.ok
          (rows.dropLast ++
            [{ row with status := decision.toStatus,
                        decidedBy := some decidedBy, decisionNote := note }],
           [⟨"approval_decision", "decision by=" ++ decidedBy⟩])

/-- An operation on one approval pair, for reachability arguments. -/
inductive ApprovalOp where
  | request (requestedBy note : String)
  | decide (d : ApprovalDecision) (decidedBy note : String)

/-- Apply one operation; a raised exception leaves the table unchanged
(the transaction is rolled back). -/
def applyApprovalOp (rows : List ApprovalRow) : ApprovalOp → List ApprovalRow
  | .request rb n => (requestApproval rows rb n).1
  | .decide d db n =>
      match decideApproval rows d db n with
      | .ok (r, _) => r
      | .error _ => rows

/-- States of one approval pair reachable from the empty table. -/
def approvalRowsAfter (ops : List ApprovalOp) : List ApprovalRow :=
  ops.foldl applyApprovalOp []

def countNonTerminal (rows : List ApprovalRow) : ℕ :=
  rows.countP (fun r => r.status = .required)

lemma applyApprovalOp_length_le (rows : List ApprovalRow) (op : ApprovalOp)
    (h : rows.length ≤ 1) : (applyApprovalOp rows op).length ≤ 1 := by
  rcases rows with _ | ⟨r, _ | ⟨r', rest⟩⟩
  · cases op <;> simp [applyApprovalOp, requestApproval, decideApproval]
  · cases op
    case request rb n =>
      have : ([r].getLast?) = some r := rfl
      simp only [applyApprovalOp, requestApproval, this]
      split <;> simp
    case decide d db n =>
      have h1 : ([r].getLast?) = some r := rfl
      simp only [applyApprovalOp, decideApproval, h1]
      split_ifs <;> simp
  · simp at h

lemma approvalRowsAfter_length_le (ops : List ApprovalOp) :
    (approvalRowsAfter ops).length ≤ 1 := by
  suffices h : ∀ rows, rows.length ≤ 1 →
      (ops.foldl applyApprovalOp rows).length ≤ 1 by
    exact h [] (by simp)
  induction ops with
  | nil => intro rows h; simpa using h
  | cons op ops ih =>
      intro rows h
      exact ih _ (applyApprovalOp_length_le rows op h)

/-- **C9.** For a fixed `(task_id, action_category)` pair: every table
state reachable through `request_approval` / `decide_approval` from the
empty table holds at most one non-terminal (`required`) approval row;
deciding an already-terminal approval with the same outcome succeeds as a
no-op that returns the rows unchanged; deciding it with a different
outcome fails (and, the exception rolling back the transaction, changes
nothing). -/
theorem C9_approval_invariants :
    (∀ ops : List ApprovalOp, countNonTerminal (approvalRowsAfter ops) ≤ 1)
    ∧ (∀ (rows : List ApprovalRow) (row : ApprovalRow) (d : ApprovalDecision)
         (db note : String), rows.getLast? = some row →
        (row.status = .approved ∨ row.status = .rejected ∨ row.status = .cancelled) →
        ((row.status = d.toStatus →
            decideApproval rows d db note =
              Except.ok (rows, [⟨"approval_decision", "no_op=true"⟩]))
         ∧ (row.status ≠ d.toStatus →
            decideApproval rows d db note = Except.error "Approval already decided"))) := by
  constructor
  · intro ops
    calc countNonTerminal (approvalRowsAfter ops)
        ≤ (approvalRowsAfter ops).length := List.countP_le_length _
      _ ≤ 1 := approvalRowsAfter_length_le ops
  · intro rows row d db note hlast hterm
    constructor <;> intro hd
    · simp only [decideApproval, hlast]
      rw [if_pos hterm, if_pos hd]
    · simp only [decideApproval, hlast]
      rw [if_pos hterm, if_neg hd]

/-- Witness for C9: a pair already decided `approved`; re-deciding
`approved` is a no-op and deciding `rejected` fails. -/
theorem C9_approval_invariants_witness :
    decideApproval [⟨.approved, "r", some "d", "n"⟩] .approved "d2" "n2" =
      Except.ok ([⟨.approved, "r", some "d", "n"⟩],
        [⟨"approval_decision", "no_op=true"⟩])
    ∧ decideApproval [⟨.approved, "r", some "d", "n"⟩] .rejected "d2" "n2" =
      Except.error "Approval already decided" :=
  ⟨(C9_approval_invariants.2 [⟨.approved, "r", some "d", "n"⟩]
      ⟨.approved, "r", some "d", "n"⟩ .approved "d2" "n2" (by rfl)
      (by simp)).1 (by rfl),
   (C9_approval_invariants.2 [⟨.approved, "r", some "d", "n"⟩]
      ⟨.approved, "r", some "d", "n"⟩ .rejected "d2" "n2" (by rfl)
      (by simp)).2 (by simp [ApprovalDecision.toStatus])⟩

/-! ## Idempotency keys (`task_registry.py` lines 710-832)

The `idempotency_keys` table restricted to one key.  `result_json` parsing
(lines 748-754, 824-831) is modelled by surfacing the raw JSON text when
non-empty and `none` otherwise.  Neither operation calls `append_event`;
the empty event list returned by each records that fact. -/

structure IdempoRecord where
  scope : String
  taskId : Option String
  payloadHash : String
  status : String
  resultJson : String
deriving DecidableEq, Repr

/-- The result surfaced for a stored record: `None` when `result_json` is
empty, else its parsed value (modelled as the raw text). -/
def storedResult (row : IdempoRecord) : Option String :=
  if row.resultJson = "" then none else some row.resultJson

/-- The dictionary returned by `begin_idempotency` (scope/key fields
omitted). -/
structure BeginResult where
  existsFlag : Bool
  conflict : Bool
  status : String
  result : Option String
deriving DecidableEq, Repr

/-- `begin_idempotency` (lines 710-778) on the record stored under one
key: insert `processing` on a miss; on a payload-hash mismatch store
status `conflict` and surface the stored result with `conflict=true`;
otherwise leave the record alone and surface its status and result. -/
def beginIdempotency (record : Option IdempoRecord) (scope : String)
    (payloadHash : String) (taskId : Option String) :
    Option IdempoRecord × BeginResult × List Event :=
  match record with
  | none =>
      (some ⟨scope, taskId, payloadHash, "processing", ""⟩,
       ⟨false, false, "processing", none⟩, [])
  | some row =>
      if row.payloadHash ≠ payloadHash then
        (some { row with status := "conflict" },
         ⟨true, true, "conflict", storedResult row⟩, [])
      else
        (some row, ⟨true, false, row.status, storedResult row⟩, [])

/-- `complete_idempotency` (lines 781-808): validate the status, fail on
a missing key, else store the status and result JSON. -/
def completeIdempotency (record : Option IdempoRecord) (status : String)
    (resultJson : String) : Except String (Option IdempoRecord × List Event) :=
  if status ≠ "processing" ∧ status ≠ "completed" ∧ status ≠ "conflict" then
    Except.error "status must be one of: processing, completed, conflict"
  else
    match record with
    | none => Except.error "Idempotency key not found"
    | some row =>
        Except.ok (some { row with status := status, resultJson := resultJson }, [])

/-- **C4.** `begin_idempotency` for one key: the first begin inserts a
`processing` record and returns `exists=false`; a second begin with the
same payload hash leaves the record unchanged and returns the stored
status and result with `conflict=false`; a second begin with a different
payload hash moves the record to status `conflict` and returns
`conflict=true` together with the stored result. -/
theorem C4_begin_idempotency_contract :
    (∀ (scope ph : String) (tid : Option String),
        beginIdempotency none scope ph tid =
          (some ⟨scope, tid, ph, "processing", ""⟩,
           ⟨false, false, "processing", none⟩, []))
    ∧ (∀ (row : IdempoRecord) (scope ph : String) (tid : Option String),
        row.payloadHash = ph →
        beginIdempotency (some row) scope ph tid =
          (some row, ⟨true, false, row.status, storedResult row⟩, []))
    ∧ (∀ (row : IdempoRecord) (scope ph : String) (tid : Option String),
        row.payloadHash ≠ ph →
        beginIdempotency (some row) scope ph tid =
          (some { row with status := "conflict" },
           ⟨true, true, "conflict", storedResult row⟩, [])) := by
  refine ⟨fun _ _ _ => rfl, ?_, ?_⟩ <;>
    · intro row scope ph tid h
      simp [beginIdempotency, h]

/-- Witness for C4, replaying seed scenario S6 on key "K": a completed
record with hash "A" and stored result; begin with hash "A" replays the
stored outcome, begin with hash "B" conflicts. -/
theorem C4_begin_idempotency_contract_witness :
    beginIdempotency
        (some ⟨"telegram_command", none, "A", "completed", "ok"⟩) "telegram_command" "A" none =
      (some ⟨"telegram_command", none, "A", "completed", "ok"⟩,
       ⟨true, false, "completed", some "ok"⟩, [])
    ∧ beginIdempotency
        (some ⟨"telegram_command", none, "A", "completed", "ok"⟩) "telegram_command" "B" none =
      (some ⟨"telegram_command", none, "A", "conflict", "ok"⟩,
       ⟨true, true, "conflict", some "ok"⟩, []) :=
  ⟨(C4_begin_idempotency_contract.2.1 ⟨"telegram_command", none, "A", "completed", "ok"⟩
      "telegram_command" "A" none rfl).trans (by simp [storedResult]),
   (C4_begin_idempotency_contract.2.2 ⟨"telegram_command", none, "A", "completed", "ok"⟩
      "telegram_command" "B" none (by decide)).trans (by simp [storedResult])⟩

/-! ## Tasks: creation and metadata merge (`task_registry.py` lines 110-151, 202-225) -/

structure TaskRow where
  taskType : String
  prompt : String
  routeClass : String
  status : TaskStatus
  requiresApproval : Bool
  riskLevel : String
  assignedWorker : Option String
  metadata : List (String × String)
deriving DecidableEq, Repr

/-- `create_task` (lines 110-151): insert the row and append one
`created` event in the same transaction. -/
def createTask (taskType prompt routeClass : String) (status : TaskStatus)
    (requiresApproval : Bool) (riskLevel : String) (assignedWorker : Option String)
    (metadata : List (String × String)) : TaskRow × List Event :=
  (⟨taskType, prompt, routeClass, status, requiresApproval, riskLevel,
    assignedWorker, metadata⟩,
   [⟨"created", "route=" ++ routeClass ++ "; risk=" ++ riskLevel⟩])

/-- Python `dict.update`: keys of the patch win; metadata dictionaries are
modelled as association lists (key order is immaterial here). -/
def dictUpdate (current patch : List (String × String)) : List (String × String) :=
  current.filter (fun kv => patch.all (fun p => p.1 ≠ kv.1)) ++ patch

/-- `merge_task_metadata` (lines 202-225): shallow merge of the patch into
the stored metadata plus one `metadata_updated` event. -/
def mergeTaskMetadata (task : TaskRow) (patch : List (String × String))
    (detail : String) : TaskRow × List Event :=
  ({ task with metadata := dictUpdate task.metadata patch },
   [⟨"metadata_updated", detail⟩])

/-! ## Dispatch leases (`task_registry.py` lines 420-707)

The `task_dispatch_lease` row of one task (`heartbeat_at`, `created_at`
and `updated_at` are omitted; timestamps are rationals; `parse_ts`
failure is an absent expiry).  `lease_seconds` enters only through
`now + max(1, lease_seconds)` (lines 462, 518, 607). -/

inductive LeaseStatus where
  | queued | running | succeeded | failed | cancelled | expired
deriving DecidableEq, Repr, Fintype

structure Lease where
  ownerId : String
  leaseStatus : LeaseStatus
  attemptCount : ℕ
  leaseExpiresAt : Option ℚ
  lastError : String
deriving DecidableEq, Repr

/-- `expired = not current_exp or current_exp <= now_dt` (lines 487, 549):
an unparsable expiry counts as expired, and so does an expiry equal to
the current time. -/
def leaseExpired (row : Lease) (now : ℚ) : Bool :=
  match row.leaseExpiresAt with
  | none => true
  | some e => e ≤ now

/-- `(now_dt + timedelta(seconds=max(1, lease_seconds))).isoformat()`. -/
def leaseExpiry (now : ℚ) (leaseSeconds : ℤ) : ℚ := now + (max 1 leaseSeconds : ℤ)

/-- `enqueue_dispatch_lease` (lines 454-507). -/
def enqueueDispatchLease (lease : Option Lease) (ownerId : String)
    (leaseSeconds : ℤ) (now : ℚ) : Option Lease × List Event :=
  match lease with
  | none =>
      (some ⟨ownerId, .queued, 0, some (leaseExpiry now leaseSeconds), ""⟩,
       [⟨"lease", "enqueue owner=" ++ ownerId⟩])
  | some row =>
      if row.leaseStatus = .succeeded ∨ row.leaseStatus = .failed
          ∨ row.leaseStatus = .cancelled ∨ row.leaseStatus = .expired
          ∨ leaseExpired row now then
        (some { row with ownerId := ownerId, leaseStatus := .queued,
                         leaseExpiresAt := some (leaseExpiry now leaseSeconds) },
         [⟨"lease", "enqueue_reset owner=" ++ ownerId⟩])
      else
        (some row, [⟨"lease", "enqueue_noop owner=" ++ row.ownerId⟩])

/-- The `{claimed, reason}` dictionary returned by `claim_dispatch_lease`. -/
structure ClaimResult where
  claimed : Bool
  reason : String
deriving DecidableEq, Repr

/-- `claim_dispatch_lease` (lines 510-596): create a `running` lease with
`attempt_count = 1` when none exists; deny when another owner holds a
non-expired running lease; refresh (extend expiry only) when the caller
already holds it; otherwise take the lease over as `running` with
`attempt_count` incremented. -/
def claimDispatchLease (lease : Option Lease) (ownerId : String)
    (leaseSeconds : ℤ) (now : ℚ) : Option Lease × ClaimResult × List Event :=
  match lease with
  | none =>
      (some ⟨ownerId, .running, 1, some (leaseExpiry now leaseSeconds), ""⟩,
       ⟨true, "created"⟩, [⟨"lease", "claim_new owner=" ++ ownerId⟩])
  | some row =>
      if row.leaseStatus = .running ∧ leaseExpired row now = false
          ∧ row.ownerId ≠ ownerId then
        (some row, ⟨false, "held_by_other_owner"⟩,
         [⟨"lease", "claim_denied owner=" ++ ownerId ++ " held_by=" ++ row.ownerId⟩])
      else if row.leaseStatus = .running ∧ leaseExpired row now = false
          ∧ row.ownerId = ownerId then
        (some { row with leaseExpiresAt := some (leaseExpiry now leaseSeconds) },
         ⟨true, "refreshed"⟩, [⟨"lease", "claim_refresh owner=" ++ ownerId⟩])
      else
        (some { row with ownerId := ownerId, leaseStatus := .running,
                         attemptCount := row.attemptCount + 1,
                         leaseExpiresAt := some (leaseExpiry now leaseSeconds) },
         ⟨true, "claimed"⟩, [⟨"lease", "claim owner=" ++ ownerId⟩])

/-- `heartbeat_dispatch_lease` (lines 599-630). -/
def heartbeatDispatchLease (lease : Option Lease) (ownerId : String)
    (leaseSeconds : ℤ) (now : ℚ) : Except String (Option Lease × List Event) :=
  match lease with
  | none => Except.error "No lease exists"
  | some row =>
      if row.ownerId ≠ ownerId then Except.error "Lease owner mismatch"
      else if row.leaseStatus ≠ .running then Except.error "Lease is not running"
      else
        Except.ok
          (some { row with leaseExpiresAt := some (leaseExpiry now leaseSeconds) },
           [⟨"lease", "heartbeat owner=" ++ ownerId⟩])

/-- `finish_dispatch_lease` (lines 633-674); the "canceled" spelling is
normalised before validation, so the argument is a `LeaseStatus` that
must be terminal. -/
def finishDispatchLease (lease : Option Lease) (ownerId : String)
    (resultStatus : LeaseStatus) (lastError : String) (now : ℚ) :
    Except String (Option Lease × List Event) :=
  if resultStatus = .queued ∨ resultStatus = .running then
    Except.error "result_status must be one of: succeeded, failed, cancelled, expired"
  else
    match lease with
    | none => Except.error "No lease exists"
    | some row =>
        if row.ownerId ≠ ownerId then Except.error "Lease owner mismatch"
        else
          Except.ok
            (some { row with leaseStatus := resultStatus,
                             leaseExpiresAt := some now, lastError := lastError },
             [⟨"lease", "finish owner=" ++ ownerId⟩])

/-- One iteration of the `reconcile_dispatch_leases` scan (lines 677-707):
an active (queued/running) lease whose expiry has passed is reverted to
`queued` under the new owner with one event; anything else is skipped. -/
def reconcileOne (ownerId : String) (now : ℚ) (tl : String × Lease) :
    (String × Lease) × List Event :=
  if (tl.2.leaseStatus = .queued ∨ tl.2.leaseStatus = .running)
      ∧ leaseExpired tl.2 now then
    ((tl.1, { tl.2 with ownerId := ownerId, leaseStatus := .queued,
                        lastError := "lease_expired_reconciled" }),
     [⟨"lease", "reconcile_expired new_owner=" ++ ownerId⟩])
  else ((tl.1, tl.2), [])

/-- `reconcile_dispatch_leases` over the whole lease table. -/
def reconcileDispatchLeases (leases : List (String × Lease)) (ownerId : String)
    (now : ℚ) : List (String × Lease) × List Event :=
  (leases.map (fun tl => (reconcileOne ownerId now tl).1),
   (leases.map (fun tl => (reconcileOne ownerId now tl).2)).flatten)

/-- **C5.** `claim_dispatch_lease` on an existing lease row: denied
(claimed=false, row untouched) when a different owner holds a running
lease that is not expired; refreshed (claimed=true, only the expiry
extended, so `attempt_count` unchanged) when the caller holds the
non-expired running lease; in every other case the lease becomes
`running` for the caller with `attempt_count` incremented by one.  An
expiry exactly equal to the current time counts as expired, so such a
lease is claimable. -/
theorem C5_claim_dispatch_lease_cases :
    (∀ (row : Lease) (o : String) (ls : ℤ) (now : ℚ),
        row.leaseStatus = .running → leaseExpired row now = false → row.ownerId ≠ o →
        claimDispatchLease (some row) o ls now =
          (some row, ⟨false, "held_by_other_owner"⟩,
           [⟨"lease", "claim_denied owner=" ++ o ++ " held_by=" ++ row.ownerId⟩]))
    ∧ (∀ (row : Lease) (o : String) (ls : ℤ) (now : ℚ),
        row.leaseStatus = .running → leaseExpired row now = false → row.ownerId = o →
        claimDispatchLease (some row) o ls now =
          (some { row with leaseExpiresAt := some (leaseExpiry now ls) },
           ⟨true, "refreshed"⟩, [⟨"lease", "claim_refresh owner=" ++ o⟩]))
    ∧ (∀ (row : Lease) (o : String) (ls : ℤ) (now : ℚ),
        ¬(row.leaseStatus = .running ∧ leaseExpired row now = false) →
        claimDispatchLease (some row) o ls now =
          (some { row with ownerId := o, leaseStatus := .running,
                           attemptCount := row.attemptCount + 1,
                           leaseExpiresAt := some (leaseExpiry now ls) },
           ⟨true, "claimed"⟩, [⟨"lease", "claim owner=" ++ o⟩]))
    ∧ (∀ (row : Lease) (o : String) (ls : ℤ) (now : ℚ),
        row.leaseExpiresAt = some now →
        ((claimDispatchLease (some row) o ls now).2.1).claimed = true) := by
  refine ⟨?_, ?_, ?_, ?_⟩
  · intro row o ls now h1 h2 h3
    simp [claimDispatchLease, h1, h2, h3]
  · intro row o ls now h1 h2 h3
    simp [claimDispatchLease, h1, h2, h3]
  · intro row o ls now hn
    have hc1 : ¬(row.leaseStatus = .running ∧ leaseExpired row now = false
        ∧ row.ownerId ≠ o) := fun h => hn ⟨h.1, h.2.1⟩
    have hc2 : ¬(row.leaseStatus = .running ∧ leaseExpired row now = false
        ∧ row.ownerId = o) := fun h => hn ⟨h.1, h.2.1⟩
    simp only [claimDispatchLease, if_neg hc1, if_neg hc2]
  · intro row o ls now he
    have hexp : leaseExpired row now = true := by simp [leaseExpired, he]
    simp [claimDispatchLease, hexp]

/-- Witness for C5: a lease `running` for owner "A" until time 100.  At
time 10 owner "B" is denied and owner "A" refreshes; at the exact expiry
time 100 a claim (by anyone) succeeds. -/
theorem C5_claim_dispatch_lease_cases_witness :
    claimDispatchLease (some ⟨"A", .running, 3, some 100, ""⟩) "B" 60 10 =
      (some ⟨"A", .running, 3, some 100, ""⟩, ⟨false, "held_by_other_owner"⟩,
       [⟨"lease", "claim_denied owner=" ++ "B" ++ " held_by=" ++ "A"⟩])
    ∧ claimDispatchLease (some ⟨"A", .running, 3, some 100, ""⟩) "A" 60 10 =
      (some ⟨"A", .running, 3, some (leaseExpiry 10 60), ""⟩, ⟨true, "refreshed"⟩,
       [⟨"lease", "claim_refresh owner=" ++ "A"⟩])
    ∧ ((claimDispatchLease (some ⟨"A", .running, 3, some 100, ""⟩) "B" 60 100).2.1).claimed
        = true :=
  ⟨C5_claim_dispatch_lease_cases.1 ⟨"A", .running, 3, some 100, ""⟩ "B" 60 10
      rfl (by decide) (by decide),
   C5_claim_dispatch_lease_cases.2.1 ⟨"A", .running, 3, some 100, ""⟩ "A" 60 10
      rfl (by decide) rfl,
   C5_claim_dispatch_lease_cases.2.2.2 ⟨"A", .running, 3, some 100, ""⟩ "B" 60 100 rfl⟩

/-- **C10.** `claim_dispatch_lease` for a task with no lease row at all
creates the lease directly in the `running` state with
`attempt_count = 1` owned by the caller, and returns `claimed=true` with
reason "created". -/
theorem C10_claim_lease_creates_running :
    ∀ (o : String) (ls : ℤ) (now : ℚ),
      claimDispatchLease none o ls now =
        (some ⟨o, .running, 1, some (leaseExpiry now ls), ""⟩, ⟨true, "created"⟩,
         [⟨"lease", "claim_new owner=" ++ o⟩]) :=
  fun _ _ _ => rfl

/-- Counterexample for **C3** as stated: `begin_idempotency` mutates the
registry (it inserts a `processing` record for a fresh key) yet appends
no `task_events` row in that transaction, and `complete_idempotency`
likewise stores a new status and result with no event. -/
theorem C3_counterexample_idempotency_ops_write_no_event :
    (beginIdempotency none "telegram_command" "hash-a" none).2.2 = []
    ∧ (beginIdempotency none "telegram_command" "hash-a" none).1 =
        some ⟨"telegram_command", none, "hash-a", "processing", ""⟩
    ∧ completeIdempotency (some ⟨"telegram_command", none, "hash-a", "processing", ""⟩)
        "completed" "r" =
        Except.ok (some ⟨"telegram_command", none, "hash-a", "completed", "r"⟩, []) := by
  refine ⟨rfl, rfl, ?_⟩
  simp [completeIdempotency]

lemma len_of_ok {α : Type} {x out : α × List Event}
    (h : (Except.ok x : Except String (α × List Event)) = Except.ok out)
    (hx : 1 ≤ x.2.length) : 1 ≤ out.2.length := by
  cases Except.ok.inj h; exact hx

/-- **C3 (amended).** Every state-mutating registry operation other than
the two idempotency-key operations — task creation, status update,
metadata merge, the approval operations, and the lease operations —
appends at least one `task_events` row in the transaction in which it
mutates; for the reconcile scan, exactly one event per reverted lease. -/
theorem C3_mutating_ops_append_events :
    (∀ (tt p rc : String) (st : TaskStatus) (ra : Bool) (rl : String)
        (aw : Option String) (md : List (String × String)),
        1 ≤ (createTask tt p rc st ra rl aw md).2.length)
    ∧ (∀ (c n : TaskStatus) (d : String) (f : Bool) (out : TaskStatus × List Event),
        updateTask c n d f = Except.ok out → 1 ≤ out.2.length)
    ∧ (∀ (task : TaskRow) (patch : List (String × String)) (detail : String),
        1 ≤ (mergeTaskMetadata task patch detail).2.length)
    ∧ (∀ (rows : List ApprovalRow) (rb note : String),
        1 ≤ (requestApproval rows rb note).2.length)
    ∧ (∀ (rows : List ApprovalRow) (dec : ApprovalDecision) (db note : String)
        (out : List ApprovalRow × List Event),
        decideApproval rows dec db note = Except.ok out → 1 ≤ out.2.length)
    ∧ (∀ (lease : Option Lease) (o : String) (ls : ℤ) (now : ℚ),
        1 ≤ (enqueueDispatchLease lease o ls now).2.length)
    ∧ (∀ (lease : Option Lease) (o : String) (ls : ℤ) (now : ℚ),
        1 ≤ (claimDispatchLease lease o ls now).2.2.length)
    ∧ (∀ (lease : Option Lease) (o : String) (ls : ℤ) (now : ℚ)
        (out : Option Lease × List Event),
        heartbeatDispatchLease lease o ls now = Except.ok out → 1 ≤ out.2.length)
    ∧ (∀ (lease : Option Lease) (o : String) (rs : LeaseStatus) (le : String) (now : ℚ)
        (out : Option Lease × List Event),
        finishDispatchLease lease o rs le now = Except.ok out → 1 ≤ out.2.length)
    ∧ (∀ (leases : List (String × Lease)) (o : String) (now : ℚ),
        (reconcileDispatchLeases leases o now).2.length =
          (leases.filter (fun tl =>
            (tl.2.leaseStatus = .queued ∨ tl.2.leaseStatus = .running)
              ∧ leaseExpired tl.2 now)).length) := by
  refine ⟨fun _ _ _ _ _ _ _ _ => by simp [createTask],
    ?_, fun _ _ _ => by simp [mergeTaskMetadata], ?_, ?_, ?_, ?_, ?_, ?_, ?_⟩
  · intro c n d f out h
    simp only [updateTask] at h
    split at h
    · simp at h
    · exact len_of_ok h (by simp)
  · intro rows rb note
    rcases h : rows.getLast? with _ | row <;>
      simp [requestApproval, h] <;> split <;> simp
  · intro rows dec db note out h
    rcases hl : rows.getLast? with _ | row <;>
      simp only [decideApproval, hl] at h <;>
      try split_ifs at h
    all_goals
      first
      | exact len_of_ok h (by simp)
      | (cases h; simp)
      | simp at h
  · intro lease o ls now
    rcases lease with _ | row <;> simp [enqueueDispatchLease] <;> split <;> simp
  · intro lease o ls now
    rcases lease with _ | row <;> simp [claimDispatchLease] <;> split_ifs <;> simp
  · intro lease o ls now out h
    rcases lease with _ | row <;> simp only [heartbeatDispatchLease] at h <;>
      try split_ifs at h
    all_goals
      first
      | exact len_of_ok h (by simp)
      | (cases h; simp)
      | simp at h
  · intro lease o rs le now out h
    rcases lease with _ | row <;> simp only [finishDispatchLease] at h <;>
      split_ifs at h
    all_goals
      first
      | exact len_of_ok h (by simp)
      | (cases h; simp)
      | simp at h
  · intro leases o now
    induction leases with
    | nil => simp [reconcileDispatchLeases]
    | cons tl rest ih =>
        simp only [reconcileDispatchLeases, List.map_cons, List.flatten_cons,
          List.length_append, List.filter_cons] at ih ⊢
        by_cases hc : (tl.2.leaseStatus = .queued ∨ tl.2.leaseStatus = .running)
            ∧ leaseExpired tl.2 now
        · simp [reconcileOne, hc, List.length_flatten] at ih ⊢
          omega
        · simp [reconcileOne, hc, List.length_flatten] at ih ⊢
          omega

/-- Witness for C3 (amended): the implication-guarded conjuncts applied
at concrete successful calls. -/
theorem C3_mutating_ops_append_events_witness :
    (1 ≤ [(⟨"status_updated", "d"⟩ : Event)].length)
    ∧ (1 ≤ [(⟨"approval_decision", "decision by=" ++ "op"⟩ : Event)].length)
    ∧ (1 ≤ [(⟨"lease", "heartbeat owner=" ++ "A"⟩ : Event)].length)
    ∧ (1 ≤ [(⟨"lease", "finish owner=" ++ "A"⟩ : Event)].length) :=
  ⟨C3_mutating_ops_append_events.2.1 .pending .blocked "d" false
      (.blocked, [⟨"status_updated", "d"⟩]) (by rfl),
   C3_mutating_ops_append_events.2.2.2.2.1 [] .approved "op" "n"
      ([⟨.approved, "auto_created", some "op", "n"⟩],
       [⟨"approval_decision", "decision by=" ++ "op"⟩]) rfl,
   C3_mutating_ops_append_events.2.2.2.2.2.2.2.1
      (some ⟨"A", .running, 1, some 100, ""⟩) "A" 60 10
      (some ⟨"A", .running, 1, some (leaseExpiry 10 60), ""⟩,
       [⟨"lease", "heartbeat owner=" ++ "A"⟩]) (by simp [heartbeatDispatchLease]),
   C3_mutating_ops_append_events.2.2.2.2.2.2.2.2.1
      (some ⟨"A", .running, 1, some 100, ""⟩) "A" .succeeded "" 10
      (some ⟨"A", .succeeded, 1, some 10, ""⟩,
       [⟨"lease", "finish owner=" ++ "A"⟩]) (by simp [finishDispatchLease])⟩

/-! ## Per-chat rate limiter (`bot_longpoll.py` lines 198-220)

`allow_message` reads and writes only `buckets[chat_id]`, so it is
modelled on a single chat's bucket: the list of admitted timestamps
(rationals, mirroring `time.time()` floats).  The caps are
`Config.rate_limit_per_minute` and `Config.rate_limit_burst`. -/

def allowMessage (entries : List ℚ) (ratePerMinute rateBurst : ℤ) (now : ℚ) :
    Bool × List ℚ :=
  if ratePerMinute ≤ 0 then (true, entries)
  else
    let kept := entries.filter (fun ts => now - 60 ≤ ts)
    if ratePerMinute ≤ (kept.length : ℤ) then (false, kept)
    else
      let burstCount := (kept.filter (fun ts => now - 5 ≤ ts)).length
      if 0 < rateBurst ∧ rateBurst ≤ (burstCount : ℤ) then (false, kept)
      else (true, kept ++ [now])

/-- Feed a sequence of message timestamps through `allow_message`,
threading the bucket; returns the final bucket and the admission flag of
each message in order. -/
def runLimiter (perMin burst : ℤ) (entries : List ℚ) :
    List ℚ → List ℚ × List Bool
  | [] => (entries, [])
  | t :: ts =>
      let step := allowMessage entries perMin burst t
      let rest := runLimiter perMin burst step.2 ts
      (rest.1, step.1 :: rest.2)

lemma allowMessage_reject (entries : List ℚ) (perMin burst : ℤ) (now : ℚ)
    (h0 : ¬ perMin ≤ 0)
    (hfull : perMin ≤ (((entries.filter (fun ts => now - 60 ≤ ts)).length : ℕ) : ℤ)) :
    allowMessage entries perMin burst now =
      (false, entries.filter (fun ts => now - 60 ≤ ts)) := by
  simp only [allowMessage]
  rw [if_neg h0, if_pos hfull]

lemma allowMessage_burst_reject (entries : List ℚ) (perMin burst : ℤ) (now : ℚ)
    (h0 : ¬ perMin ≤ 0)
    (hroom : ¬ perMin ≤ (((entries.filter (fun ts => now - 60 ≤ ts)).length : ℕ) : ℤ))
    (hburst : 0 < burst ∧ burst ≤
      ((((entries.filter (fun ts => now - 60 ≤ ts)).filter
          (fun ts => now - 5 ≤ ts)).length : ℕ) : ℤ)) :
    allowMessage entries perMin burst now =
      (false, entries.filter (fun ts => now - 60 ≤ ts)) := by
  simp only [allowMessage]
  rw [if_neg h0, if_neg hroom, if_pos hburst]

lemma allowMessage_allow (entries : List ℚ) (perMin burst : ℤ) (now : ℚ)
    (h0 : ¬ perMin ≤ 0)
    (hroom : ¬ perMin ≤ (((entries.filter (fun ts => now - 60 ≤ ts)).length : ℕ) : ℤ))
    (hburst : ¬ (0 < burst ∧ burst ≤
      ((((entries.filter (fun ts => now - 60 ≤ ts)).filter
          (fun ts => now - 5 ≤ ts)).length : ℕ) : ℤ))) :
    allowMessage entries perMin burst now =
      (true, entries.filter (fun ts => now - 60 ≤ ts) ++ [now]) := by
  simp only [allowMessage]
  rw [if_neg h0, if_neg hroom, if_neg hburst]

/-- Counterexample for **C8** as stated: the claim quantifies over every
chat and every configured per-minute cap N, but the burst-within-5s cap
can reject the N-th message of the window.  With per-minute cap N = 2
and burst cap 1, two messages at time 0 (both inside one 60-second
window) yield: first admitted, second — the N-th — rejected. -/
theorem C8_counterexample_burst_cap_rejects_Nth :
    (runLimiter 2 1 [] [(0 : ℚ), 0]).2 = [true, false] := by
  have h1 : allowMessage [] 2 1 (0 : ℚ) = (true, [(0 : ℚ)]) := by
    rw [allowMessage_allow _ _ _ _ (by norm_num) (by simp) (by simp)]
    simp
  have hf : List.filter (fun ts => (0 : ℚ) - 60 ≤ ts) [(0 : ℚ)] = [(0 : ℚ)] := by
    simp only [List.filter_eq_self, List.mem_singleton]
    rintro a rfl
    norm_num
  have hf5 : List.filter (fun ts => (0 : ℚ) - 5 ≤ ts) [(0 : ℚ)] = [(0 : ℚ)] := by
    simp only [List.filter_eq_self, List.mem_singleton]
    rintro a rfl
    norm_num
  have h2 : allowMessage [(0 : ℚ)] 2 1 (0 : ℚ) = (false, [(0 : ℚ)]) := by
    rw [allowMessage_burst_reject _ _ _ _ (by norm_num)
      (by rw [hf]; norm_num) (by rw [hf, hf5]; norm_num)]
    rw [hf]
  simp only [runLimiter, h1, h2]

lemma range_map_filter_window (t : ℕ → ℚ) (a N : ℕ) (haN : a ≤ N)
    (mono : ∀ i j, i ≤ j → j ≤ N → t i ≤ t j) (window : t N ≤ t 0 + 60) :
    ((List.range a).map t).filter (fun ts => t a - 60 ≤ ts) =
      (List.range a).map t := by
  rw [List.filter_eq_self]
  intro x hx
  obtain ⟨i, hi, rfl⟩ := List.mem_map.mp hx
  have hi' : i < a := List.mem_range.mp hi
  have h0 : t 0 ≤ t i := mono 0 i (Nat.zero_le i) (le_trans (le_of_lt hi') haN)
  have ha : t a ≤ t N := mono a N haN le_rfl
  simp only [decide_eq_true_eq]
  linarith

lemma runLimiter_window_spec (N : ℕ) (burst : ℤ) (t : ℕ → ℚ)
    (hN : 1 ≤ N) (hburst : burst ≤ 0)
    (mono : ∀ i j, i ≤ j → j ≤ N → t i ≤ t j) (window : t N ≤ t 0 + 60) :
    ∀ (k a : ℕ), a + k = N →
      (runLimiter (N : ℤ) burst ((List.range a).map t)
        ((List.range' a (N + 1 - a)).map t)).2 =
      List.replicate k true ++ [false] := by
  intro k
  induction k with
  | zero =>
      intro a ha
      obtain rfl : N = a := by omega
      rw [show N + 1 - N = 1 from by omega, List.range'_one, List.map_singleton]
      simp only [runLimiter]
      rw [allowMessage_reject _ _ _ _ (by omega)
        (by rw [range_map_filter_window t N N le_rfl mono window]; simp)]
      simp [runLimiter]
  | succ k ih =>
      intro a ha
      have haN : a < N := by omega
      rw [show N + 1 - a = (N - a) + 1 from by omega, List.range'_succ, List.map_cons]
      simp only [runLimiter]
      rw [allowMessage_allow _ _ _ _ (by omega)
        (by rw [range_map_filter_window t a N (le_of_lt haN) mono window]
            simp
            omega)
        (by exact fun h => absurd h.1 (by omega))]
      rw [range_map_filter_window t a N (le_of_lt haN) mono window]
      rw [show (List.range a).map t ++ [t a] = (List.range (a + 1)).map t from by
        rw [List.range_succ, List.map_append, List.map_singleton]]
      have hrec := ih (a + 1) (by omega)
      rw [show N + 1 - (a + 1) = N - a from by omega] at hrec
      simp [hrec, List.replicate_succ]

/-- **C8 (amended).** For every chat, per-minute cap N ≥ 1 and message
timestamps that are non-decreasing and fit in one trailing 60-second
window, the limiter — with the burst-within-5s cap disabled
(`rate_limit_burst ≤ 0`) — admits the first N messages (in particular
the N-th) and rejects the (N+1)-th. -/
theorem C8_rate_limit_boundary_without_burst :
    ∀ (N : ℕ) (burst : ℤ) (t : ℕ → ℚ),
      1 ≤ N → burst ≤ 0 →
      (∀ i j, i ≤ j → j ≤ N → t i ≤ t j) →
      t N ≤ t 0 + 60 →
      (runLimiter (N : ℤ) burst [] ((List.range (N + 1)).map t)).2 =
        List.replicate N true ++ [false] := by
  intro N burst t hN hburst mono window
  have h := runLimiter_window_spec N burst t hN hburst mono window N 0 (by omega)
  rw [List.range_eq_range']
  simpa using h

/-- Witness for C8 (amended): cap N = 2, burst disabled, messages at
times 0, 1, 2 — flags true, true, false. -/
theorem C8_rate_limit_boundary_without_burst_witness :
    (runLimiter ((2 : ℕ) : ℤ) 0 [] ((List.range 3).map (fun i => (i : ℚ)))).2 =
      List.replicate 2 true ++ [false] :=
  C8_rate_limit_boundary_without_burst 2 0 (fun i => (i : ℚ)) (by omega) le_rfl
    (fun i j hij _ => by
      show (i : ℚ) ≤ (j : ℚ)
      exact_mod_cast hij)
    (by norm_num)

/-! ## Update processing (`bot_longpoll.py` lines 524-574)

`process_update` for an update that carries a message.  The chat
transport (`send_message`) and the command handler are external effects:
the outcome records the audit status written, whether the command handler
ran, and whether a reply was sent.  The handler is a parameter returning
a reply text or an error string (the `command_timeout` classification on
lines 569-571 is a substring test on the error text). -/

structure ChatUpdate where
  updateId : ℤ
  chatId : ℤ
  text : String
deriving DecidableEq, Repr

structure ProcessOutcome where
  auditStatus : String
  handlerInvoked : Bool
  replySent : Bool
deriving DecidableEq, Repr

/-- Python substring test (`needle in hay`). -/
def strContainsSub (hay needle : String) : Bool :=
  hay.toList.tails.any (fun t => needle.toList.isPrefixOf t)

/-- Python `str.startswith`, on the character list. -/
def pyStartsWith (s pre : String) : Bool :=
  pre.toList.isPrefixOf s.toList

def processUpdate (allowedIds : List ℤ) (perMin burst : ℤ)
    (handler : ChatUpdate → Except String String)
    (buckets : List ℚ) (u : ChatUpdate) (now : ℚ) : ProcessOutcome × List ℚ :=
  let step := allowMessage buckets perMin burst now
  if step.1 = false then (⟨"rate_limited", false, false⟩, step.2)
  else if allowedIds ≠ [] ∧ u.chatId ∉ allowedIds then
    (⟨"unauthorized", false, true⟩, step.2)
  else if ¬ pyStartsWith u.text "/" then
    (⟨"ignored_non_command", false, false⟩, step.2)
  else
    match handler u with
    | .ok _ => (⟨"ok", true, true⟩, step.2)
    | .error err =>
        (⟨if strContainsSub err "command_timeout" then "command_timeout" else "error",
          true, true⟩, step.2)

/-- The duplicate update of seed scenario S1 and of the repository's own
test `test_telegram_duplicate_update_executes_once`: update_id 777,
allowed chat 12345, text "/start". -/
def update777 : ChatUpdate := ⟨777, 12345, "/start"⟩

/-- **C1**, evaluated at the failing input: `process_update` keeps no
record of processed update_ids — it never calls `begin_idempotency` — so
delivering the very same update (update_id 777) a second time invokes
the command handler again, writes a second `ok` audit record (never
`idempotent_replay`), and sends a second reply.  This contradicts the
spec (§4.6), seed scenario S1, and the repository's test
`test_telegram_duplicate_update_executes_once`. -/
theorem C1_duplicate_update_executes_twice :
    (processUpdate [12345] 20 5 (fun _ => Except.ok "help") [] update777 0).1 =
      ⟨"ok", true, true⟩
    ∧ (processUpdate [12345] 20 5 (fun _ => Except.ok "help")
        (processUpdate [12345] 20 5 (fun _ => Except.ok "help") [] update777 0).2
        update777 1).1 = ⟨"ok", true, true⟩ := by
  have h1 : allowMessage [] 20 5 (0 : ℚ) = (true, [(0 : ℚ)]) := by
    rw [allowMessage_allow _ _ _ _ (by norm_num) (by simp) (by simp)]
    simp
  have hf : List.filter (fun ts => (1 : ℚ) - 60 ≤ ts) [(0 : ℚ)] = [(0 : ℚ)] := by
    simp only [List.filter_eq_self, List.mem_singleton]
    rintro a rfl
    norm_num
  have hf5 : List.filter (fun ts => (1 : ℚ) - 5 ≤ ts) [(0 : ℚ)] = [(0 : ℚ)] := by
    simp only [List.filter_eq_self, List.mem_singleton]
    rintro a rfl
    norm_num
  have h2 : allowMessage [(0 : ℚ)] 20 5 (1 : ℚ) = (true, [(0 : ℚ), 1]) := by
    rw [allowMessage_allow _ _ _ _ (by norm_num)
      (by rw [hf]; norm_num) (by rw [hf, hf5]; norm_num)]
    rw [hf]
    rfl
  have hslash : pyStartsWith "/start" "/" = true := by decide
  constructor
  · simp only [processUpdate, h1]
    simp [update777, hslash]
  · simp only [processUpdate, h1, h2]
    simp [update777, hslash, h2]

/-! ## Dispatch retry (`router.py` lines 203-215, 542-579)

Character-level Python string helpers, shared with the context-compaction
model below.  `str.strip()` uses the Python whitespace set, modelled by
`Char.isWhitespace`. -/

def isPyWS (c : Char) : Bool := c.isWhitespace

/-- Python `str.strip()`. -/
def pyStrip (l : List Char) : List Char :=
  ((l.dropWhile isPyWS).reverse.dropWhile isPyWS).reverse

/-- Python substring test on character lists. -/
def listContainsSub (hay needle : List Char) : Bool :=
  hay.tails.any (fun t => needle.isPrefixOf t)

/-- A `subprocess.CompletedProcess`.  A wall-clock timeout is already
folded in by `run_command` (lines 559-565): it synthesises returncode 124
with stderr "dispatch_timeout after …s", so each attempt is modelled as
the `CompletedProcess` the loop body goes on to inspect. -/
structure ProcResult where
  returncode : ℤ
  stdout : String
  stderr : String
deriving DecidableEq, Repr

/-- The closed marker list of `is_transient_dispatch_error` (lines
205-214), in source order. -/
def transientMarkers : List String :=
  ["timed out", "timeout", "temporarily unavailable", "connection reset",
   "broken pipe", "resource temporarily unavailable", "too many requests",
   "service unavailable"]

/-- `is_transient_dispatch_error` (lines 203-215): lowercase the text and
test each marker for substring containment. -/
def isTransientDispatchError (errorText : List Char) : Bool :=
  transientMarkers.any (fun m =>
    listContainsSub (errorText.map Char.toLower) m.toList)

/-- `err = (proc.stderr or proc.stdout or "").strip()` (line 570). -/
def errText (p : ProcResult) : List Char :=
  pyStrip (if p.stderr ≠ "" then p.stderr.toList
    else if p.stdout ≠ "" then p.stdout.toList else [])

/-- The retry loop of `run_command` (lines 551-577), with the worker
invocations abstracted as `results : ℕ → ProcResult` (1-indexed by
attempt) and the uniform jitter draws as `jit : ℕ → ℚ`.  `remaining`
counts the attempts still permitted after the current one
(`attempts - attempt`); the loop returns the final process, the number of
invocations made, and the sleeps performed between attempts
(`time.sleep(max(0.05, backoff * 2**(attempt-1) + jitter))`, line
575-577). -/
def runCommandGo (results : ℕ → ProcResult) (backoff : ℚ) (jit : ℕ → ℚ) :
    ℕ → ℕ → ProcResult × ℕ × List ℚ
  | attempt, 0 => (results attempt, attempt, [])
  | attempt, remaining + 1 =>
      let proc := results attempt
      if proc.returncode = 0 then (proc, attempt, [])
      else if isTransientDispatchError (errText proc) = false then
        (proc, attempt, [])
      else
        let rest := runCommandGo results backoff jit (attempt + 1) remaining
        (rest.1, rest.2.1,
         max (1/20 : ℚ) (backoff * 2 ^ (attempt - 1) + jit attempt) :: rest.2.2)

/-- `run_command`: `attempts = max(1, retry_max + 1)` (line 548), loop
from attempt 1. -/
def runCommand (results : ℕ → ProcResult) (retryMax : ℕ) (backoff : ℚ)
    (jit : ℕ → ℚ) : ProcResult × ℕ × List ℚ :=
  runCommandGo results backoff jit 1 (max 1 (retryMax + 1) - 1)

/-- The backoff-with-jitter sleep requested before retry number k+1. -/
def sleepFor (backoff : ℚ) (jit : ℕ → ℚ) (k : ℕ) : ℚ :=
  max (1/20 : ℚ) (backoff * 2 ^ (k - 1) + jit k)

lemma runCommandGo_spec (results : ℕ → ProcResult) (backoff : ℚ) (jit : ℕ → ℚ) :
    ∀ (remaining attempt : ℕ),
      attempt ≤ (runCommandGo results backoff jit attempt remaining).2.1
      ∧ (runCommandGo results backoff jit attempt remaining).2.1 ≤ attempt + remaining
      ∧ (runCommandGo results backoff jit attempt remaining).1 =
          results (runCommandGo results backoff jit attempt remaining).2.1
      ∧ (∀ k, attempt ≤ k →
          k < (runCommandGo results backoff jit attempt remaining).2.1 →
          (results k).returncode ≠ 0
            ∧ isTransientDispatchError (errText (results k)) = true)
      ∧ ((results (runCommandGo results backoff jit attempt remaining).2.1).returncode = 0
          ∨ (runCommandGo results backoff jit attempt remaining).2.1 = attempt + remaining
          ∨ isTransientDispatchError
              (errText (results (runCommandGo results backoff jit attempt remaining).2.1))
              = false)
      ∧ (runCommandGo results backoff jit attempt remaining).2.2 =
          (List.range' attempt
            ((runCommandGo results backoff jit attempt remaining).2.1 - attempt)).map
            (sleepFor backoff jit) := by
  intro remaining
  induction remaining with
  | zero =>
      intro attempt
      refine ⟨le_rfl, by simp [runCommandGo], rfl, ?_, Or.inr (Or.inl rfl), by
        simp [runCommandGo]⟩
      intro k hk hk'
      simp only [runCommandGo] at hk'
      omega
  | succ remaining ih =>
      intro attempt
      by_cases hrc : (results attempt).returncode = 0
      · have hout : runCommandGo results backoff jit attempt (remaining + 1) =
            (results attempt, attempt, []) := by
          simp only [runCommandGo]
          rw [if_pos hrc]
        rw [hout]
        refine ⟨le_rfl, ?_, rfl, ?_, Or.inl hrc, by simp⟩
        · show attempt ≤ attempt + (remaining + 1)
          omega
        · intro k hk hk'
          exact absurd (Nat.lt_of_le_of_lt hk hk') (lt_irrefl _)
      · by_cases htr : isTransientDispatchError (errText (results attempt)) = false
        · have hout : runCommandGo results backoff jit attempt (remaining + 1) =
              (results attempt, attempt, []) := by
            simp only [runCommandGo]
            rw [if_neg hrc, if_pos htr]
          rw [hout]
          refine ⟨le_rfl, ?_, rfl, ?_, Or.inr (Or.inr htr), by simp⟩
          · show attempt ≤ attempt + (remaining + 1)
            omega
          · intro k hk hk'
            exact absurd (Nat.lt_of_le_of_lt hk hk') (lt_irrefl _)
        · have hout : runCommandGo results backoff jit attempt (remaining + 1) =
              ((runCommandGo results backoff jit (attempt + 1) remaining).1,
               (runCommandGo results backoff jit (attempt + 1) remaining).2.1,
               sleepFor backoff jit attempt ::
                 (runCommandGo results backoff jit (attempt + 1) remaining).2.2) := by
            simp only [runCommandGo]
            rw [if_neg hrc, if_neg htr]
            rfl
          obtain ⟨ih1, ih2, ih3, ih4, ih5, ih6⟩ := ih (attempt + 1)
          rw [hout]
          refine ⟨?_, ?_, ih3, ?_, ?_, ?_⟩
          · show attempt ≤ (runCommandGo results backoff jit (attempt + 1) remaining).2.1
            omega
          · show (runCommandGo results backoff jit (attempt + 1) remaining).2.1
              ≤ attempt + (remaining + 1)
            omega
          · intro k hk hk'
            replace hk' : k <
              (runCommandGo results backoff jit (attempt + 1) remaining).2.1 := hk'
            rcases Nat.eq_or_lt_of_le hk with rfl | hk1
            · exact ⟨hrc, by simpa using htr⟩
            · exact ih4 k hk1 hk'
          · show (results (runCommandGo results backoff jit (attempt + 1) remaining).2.1).returncode = 0
              ∨ (runCommandGo results backoff jit (attempt + 1) remaining).2.1
                = attempt + (remaining + 1)
              ∨ isTransientDispatchError (errText
                  (results (runCommandGo results backoff jit (attempt + 1) remaining).2.1))
                  = false
            rcases ih5 with h | h | h
            · exact Or.inl h
            · exact Or.inr (Or.inl (by omega))
            · exact Or.inr (Or.inr h)
          · show sleepFor backoff jit attempt ::
                (runCommandGo results backoff jit (attempt + 1) remaining).2.2 =
              (List.range' attempt
                ((runCommandGo results backoff jit (attempt + 1) remaining).2.1
                  - attempt)).map (sleepFor backoff jit)
            rw [show (runCommandGo results backoff jit (attempt + 1) remaining).2.1
                - attempt =
                ((runCommandGo results backoff jit (attempt + 1) remaining).2.1
                  - (attempt + 1)) + 1 from by omega]
            rw [List.range'_succ, List.map_cons, ih6]

/-- **C7.** The retry loop invokes the worker at most `retry_max + 1`
times; every non-final invocation failed (non-zero returncode) with a
transient error text; the returned process is the final invocation's,
which is either a success, the last permitted attempt, or a non-transient
failure (returned immediately); the sleeps between attempts are exactly
`max(0.05, backoff · 2^(k-1) + jitter_k)` for attempts k = 1, …, n-1, and
when every jitter draw lies in [0, jitter] each sleep lies between the
pure exponential backoff and the jitter-padded bound.  Finally, seed
scenario S3: with retry_max = 1 and a worker that fails transiently on
attempt 1 and succeeds on attempt 2, the worker runs exactly twice and
the result is the success. -/
theorem C7_run_command_retry_behaviour :
    (∀ (results : ℕ → ProcResult) (retryMax : ℕ) (backoff : ℚ) (jit : ℕ → ℚ),
        1 ≤ (runCommand results retryMax backoff jit).2.1
        ∧ (runCommand results retryMax backoff jit).2.1 ≤ retryMax + 1
        ∧ (runCommand results retryMax backoff jit).1 =
            results (runCommand results retryMax backoff jit).2.1
        ∧ (∀ k, 1 ≤ k → k < (runCommand results retryMax backoff jit).2.1 →
            (results k).returncode ≠ 0
              ∧ isTransientDispatchError (errText (results k)) = true)
        ∧ ((results (runCommand results retryMax backoff jit).2.1).returncode = 0
            ∨ (runCommand results retryMax backoff jit).2.1 = retryMax + 1
            ∨ isTransientDispatchError
                (errText (results (runCommand results retryMax backoff jit).2.1))
                = false)
        ∧ (runCommand results retryMax backoff jit).2.2 =
            (List.range' 1 ((runCommand results retryMax backoff jit).2.1 - 1)).map
              (sleepFor backoff jit))
    ∧ (∀ (backoff jitter : ℚ) (jit : ℕ → ℚ),
        (∀ k, 0 ≤ jit k ∧ jit k ≤ jitter) →
        ∀ k, max (1/20 : ℚ) (backoff * 2 ^ (k - 1)) ≤ sleepFor backoff jit k
          ∧ sleepFor backoff jit k ≤ max (1/20 : ℚ) (backoff * 2 ^ (k - 1) + jitter)) := by
  constructor
  · intro results retryMax backoff jit
    have h := runCommandGo_spec results backoff jit (max 1 (retryMax + 1) - 1) 1
    obtain ⟨h1, h2, h3, h4, h5, h6⟩ := h
    have hatt : 1 + (max 1 (retryMax + 1) - 1) = retryMax + 1 := by omega
    rw [hatt] at h2 h5
    exact ⟨h1, h2, h3, h4, h5, h6⟩
  · intro backoff jitter jit hjit k
    constructor
    · exact max_le_max le_rfl (by have := (hjit k).1; linarith)
    · exact max_le_max le_rfl (by have := (hjit k).2; linarith)

/-- The S3 worker wrapper: transient failure ("connection reset") on
attempt 1, success with stdout READY on attempt 2. -/
def s3Results : ℕ → ProcResult := fun k =>
  if k = 1 then ⟨1, "", "connection reset by peer"⟩ else ⟨0, "READY", ""⟩

/-- Witness for C7, replaying seed scenario S3 concretely: with
retry_max = 1 the worker is invoked exactly twice and the final result is
the success, and the single sleep is bounded by the jitter-padded
backoff. -/
theorem C7_run_command_retry_behaviour_witness :
    (runCommand s3Results 1 1 (fun _ => 0)).2.1 = 2
    ∧ (runCommand s3Results 1 1 (fun _ => 0)).1 = ⟨0, "READY", ""⟩
    ∧ sleepFor 1 (fun _ => 0) 1 ≤ max (1/20 : ℚ) (1 * 2 ^ (1 - 1) + (3/10 : ℚ)) := by
  have hcount : (runCommand s3Results 1 1 (fun _ => 0)).2.1 = 2 := by
    have h2 : (runCommand s3Results 1 1 (fun _ => 0)).2.1 ≤ 1 + 1 :=
      (C7_run_command_retry_behaviour.1 s3Results 1 1 (fun _ => 0)).2.1
    have h1 : 1 ≤ (runCommand s3Results 1 1 (fun _ => 0)).2.1 :=
      (C7_run_command_retry_behaviour.1 s3Results 1 1 (fun _ => 0)).1
    have hnot1 : (runCommand s3Results 1 1 (fun _ => 0)).2.1 ≠ 1 := by
      intro hone
      have h5 := (C7_run_command_retry_behaviour.1 s3Results 1 1 (fun _ => 0)).2.2.2.2.1
      rw [hone] at h5
      rcases h5 with h | h | h
      · simp [s3Results] at h
      · omega
      · rw [show errText (s3Results 1) =
            "connection reset by peer".toList from by decide] at h
        simp only [show isTransientDispatchError "connection reset by peer".toList
            = true from by decide] at h
        exact Bool.noConfusion h
    omega
  refine ⟨hcount, ?_, ?_⟩
  · have h3 := (C7_run_command_retry_behaviour.1 s3Results 1 1 (fun _ => 0)).2.2.1
    rw [hcount] at h3
    rw [h3]
    decide
  · exact (C7_run_command_retry_behaviour.2 1 (3/10 : ℚ) (fun _ => 0)
      (fun k => ⟨le_rfl, by norm_num⟩) 1).2

/-! ## Context compaction (`router.py` lines 310-378)

`estimate_tokens` and `compact_text_to_token_budget` on character lists.
Python's two float constants are modelled as exact rationals with
truncation — `int(input_tokens * target_ratio())` (default ratio 0.7,
line 340) as `inputTokens * 7 / 10` and `int((budget * 4) * 0.9)` (line
373) as `budget * 4 * 9 / 10` — and the float `ratio` return value
(line 377), which no claim concerns, is omitted. -/

/-- `estimate_tokens` (lines 310-311): `max(1, (len(text) + 3) // 4)`. -/
def estimateTokens (text : List Char) : ℕ := max 1 ((text.length + 3) / 4)

/-- Python `str.rstrip()`. -/
def pyRStrip (l : List Char) : List Char := (l.reverse.dropWhile isPyWS).reverse

/-- Python `str.split()`: split on whitespace runs, dropping empties. -/
def pyWords (l : List Char) : List (List Char) :=
  (l.splitOnP isPyWS).filter (fun w => w ≠ [])

/-- `" ".join(text.split())` (line 315). -/
def pyCollapseWS (l : List Char) : List Char :=
  List.intercalate [' '] (pyWords l)

/-- `compact_snippet` (lines 314-318).  Every call site passes a limit
of at least 3, so the truncated `Nat` subtraction agrees with Python's
`clean[: limit - 3]`. -/
def compactSnippet (l : List Char) (limit : ℕ) : List Char :=
  let clean := pyCollapseWS l
  if clean.length ≤ limit then clean
  else clean.take (limit - 3) ++ ['.', '.', '.']

/-- Worker for `str.splitlines` (newline-only, as produced by the
router's payload builder): accumulate the current line reversed; a
trailing newline does not open a final empty line. -/
def pySplitlinesGo : List Char → List Char → List (List Char)
  | acc, [] => [acc.reverse]
  | acc, c :: rest =>
      if c = '\n' then
        if rest = [] then [acc.reverse]
        else acc.reverse :: pySplitlinesGo [] rest
      else pySplitlinesGo (c :: acc) rest

/-- Python `str.splitlines()`; the empty string yields no lines. -/
def pySplitlines : List Char → List (List Char)
  | [] => []
  | c :: rest => pySplitlinesGo [] (c :: rest)

/-- `line.startswith("- ")` (line 348). -/
def startswithDash (l : List Char) : Bool := ('-' :: ' ' :: []).isPrefixOf l

def joinLines (ls : List (List Char)) : List Char := List.intercalate ['\n'] ls

/-- The essential-line selection loop (lines 353-357): append each line,
stopping once the estimate reaches the effective budget. -/
def selectEssential (eb : ℕ) (acc : List (List Char)) :
    List (List Char) → List (List Char)
  | [] => acc
  | l :: ls =>
      if eb ≤ estimateTokens (joinLines (acc ++ [l])) then acc ++ [l]
      else selectEssential eb (acc ++ [l]) ls

/-- The retrieval-line loop (lines 359-368): append lines while the
estimate stays within the effective budget. -/
def addRetrieval (eb : ℕ) (acc : List (List Char)) :
    List (List Char) → List (List Char)
  | [] => acc
  | l :: ls =>
      if eb < estimateTokens (joinLines (acc ++ [l])) then acc
      else addRetrieval eb (acc ++ [l]) ls

/-- The final budget guard (lines 372-374): when the selection still
exceeds the budget, cut to `max(80, int(budget * 4 * 0.9))` characters
and re-clean. -/
def finalTrim (budget : ℕ) (compacted0 : List Char) : List Char :=
  if budget < estimateTokens compacted0 then
    compactSnippet (compacted0.take (max 80 (budget * 4 * 9 / 10)))
      (compacted0.take (max 80 (budget * 4 * 9 / 10))).length
  else compacted0

structure CompactResult where
  compacted : List Char
  tokensIn : ℕ
  tokensOut : ℕ
deriving DecidableEq, Repr

/-- `compact_text_to_token_budget` (lines 335-378).  The single pass that
classifies each line (retrieval when it starts with "- ", essential when
it is non-blank) is written as two filters; order within each class is
preserved, exactly as in the source. -/
def compactTextToTokenBudget (text : List Char) (budget : ℕ) : CompactResult :=
  let inputTokens := estimateTokens text
  if pyStrip text = [] then ⟨text, inputTokens, inputTokens⟩
  else
    let effectiveBudget := min budget (max 120 (inputTokens * 7 / 10))
    let lines := (pySplitlines text).map pyRStrip
    if lines = [] then ⟨text, inputTokens, inputTokens⟩
    else
      let retrievalLines := (lines.filter (fun l => startswithDash l)).map
        (fun l => compactSnippet l 160)
      let essentialLines := (lines.filter
        (fun l => startswithDash l = false ∧ pyStrip l ≠ [])).map
        (fun l => compactSnippet l 200)
      let selected0 := selectEssential effectiveBudget [] essentialLines
      let selected :=
        if retrievalLines ≠ [] ∧ estimateTokens (joinLines selected0) < effectiveBudget
        then addRetrieval effectiveBudget
          (selected0 ++ ["retrieval:".toList]) retrievalLines
        else selected0
      let compacted0 :=
        if selected = [] then compactSnippet text 400 else joinLines selected
      ⟨finalTrim budget compacted0, inputTokens,
       estimateTokens (finalTrim budget compacted0)⟩

set_option maxRecDepth 8000 in
/-- Counterexample for **C6** as stated: the compacted output can exceed
the configured budget.  A whitespace-only input of 100 blanks is returned
unchanged (25 estimated tokens) even under budget 1; and for budget 10 a
single 100-character line is cut only to `max(80, 36) = 80` characters,
i.e. 20 estimated tokens. -/
theorem C6_counterexample_budget_exceeded :
    (compactTextToTokenBudget (List.replicate 100 ' ') 1).tokensOut = 25
    ∧ 1 < (compactTextToTokenBudget (List.replicate 100 ' ') 1).tokensOut
    ∧ (compactTextToTokenBudget (List.replicate 100 'a') 10).tokensOut = 20
    ∧ 10 < (compactTextToTokenBudget (List.replicate 100 'a') 10).tokensOut := by
  exact ⟨by decide, by decide, by decide, by decide⟩

lemma compactSnippet_length_le (l : List Char) (limit : ℕ) (h3 : 3 ≤ limit) :
    (compactSnippet l limit).length ≤ limit := by
  simp only [compactSnippet]
  split
  · assumption
  · simp only [List.length_append, List.length_take, List.length_cons,
      List.length_nil]
    omega

lemma pyStrip_eq_nil_iff (l : List Char) :
    pyStrip l = [] ↔ ∀ c ∈ l, isPyWS c = true := by
  simp only [pyStrip, List.reverse_eq_nil_iff, List.dropWhile_eq_nil_iff,
    List.mem_reverse]
  constructor
  · intro h c hc
    have hsplit := List.takeWhile_append_dropWhile (p := isPyWS) (l := l)
    rw [← hsplit] at hc
    rcases List.mem_append.mp hc with h1 | h1
    · exact List.mem_takeWhile_imp h1
    · exact h c h1
  · intro h c hc
    exact h c ((List.dropWhile_sublist _).mem hc)

lemma pySplitlinesGo_ne_nil (l acc : List Char) : pySplitlinesGo acc l ≠ [] := by
  induction l generalizing acc with
  | nil => simp [pySplitlinesGo]
  | cons c rest ih =>
      simp only [pySplitlinesGo]
      split_ifs
      · simp
      · simp
      · exact ih _

lemma finalTrim_tokens_le (budget : ℕ) (c0 : List Char) (hb : 20 ≤ budget) :
    estimateTokens (finalTrim budget c0) ≤ budget := by
  simp only [finalTrim]
  split
  · rename_i h
    have hlong : 81 ≤ c0.length := by
      simp only [estimateTokens] at h
      omega
    have htake : (c0.take (max 80 (budget * 4 * 9 / 10))).length =
        min (max 80 (budget * 4 * 9 / 10)) c0.length := List.length_take _ _
    have hsnip := compactSnippet_length_le (c0.take (max 80 (budget * 4 * 9 / 10)))
      (c0.take (max 80 (budget * 4 * 9 / 10))).length (by rw [htake]; omega)
    simp only [estimateTokens]
    omega
  · rename_i h
    omega

lemma pySplitlines_map_ne_nil (text : List Char) (h : text ≠ []) :
    (pySplitlines text).map pyRStrip ≠ [] := by
  cases text with
  | nil => exact absurd rfl h
  | cons c rest =>
      simp only [pySplitlines, Ne, List.map_eq_nil_iff]
      exact pySplitlinesGo_ne_nil _ _

/-- **C6 (amended).** For every input text containing at least one
non-whitespace character and every configured token budget of at least
20 tokens, the compacted context has an estimated token count
(⌈chars/4⌉, at least 1) not exceeding the budget.  (A whitespace-only
input is returned unchanged whatever the budget, and budgets below 20
can be exceeded because the final guard never cuts below 80 characters;
see the counterexample.) -/
theorem C6_compaction_respects_budget :
    ∀ (text : List Char) (budget : ℕ),
      (∃ c ∈ text, isPyWS c = false) → 20 ≤ budget →
      (compactTextToTokenBudget text budget).tokensOut ≤ budget := by
  intro text budget hne hb
  have hstrip : pyStrip text ≠ [] := by
    rw [Ne, pyStrip_eq_nil_iff]
    intro hall
    obtain ⟨c, hc, hcws⟩ := hne
    rw [hall c hc] at hcws
    exact Bool.noConfusion hcws
  have htext : text ≠ [] := by
    rintro rfl
    exact hstrip rfl
  have hlines := pySplitlines_map_ne_nil text htext
  simp only [compactTextToTokenBudget]
  rw [if_neg hstrip, if_neg hlines]
  exact finalTrim_tokens_le budget _ hb

/-- Witness for C6 (amended): the text "hello" under budget 20. -/
theorem C6_compaction_respects_budget_witness :
    (compactTextToTokenBudget "hello".toList 20).tokensOut ≤ 20 :=
  C6_compaction_respects_budget "hello".toList 20
    ⟨'h', by decide, by decide⟩ le_rfl

end ZhcNova